import Mathlib

/-!
Verification of the AI response orchestration core of the cocococo desktop
mascot (src/desktop_mascot.py, src/gemini_api_handler.py,
src/behavior_manager.py, src/character_controller.py).

The Python code is shallowly embedded: each definition below mirrors one
source function; stateful code is modelled by explicit state passing.
-/

namespace Cocococo


/-! ## Model fallback chain and dispatch loop
    (GeminiAPIHandler._get_fallback_model, GeminiAPIHandler._generation_thread) -/

/-- Mirrors `GeminiAPIHandler._get_fallback_model`: the hard-coded fallback
mapping between model tiers; a tier with no entry ends the chain. -/
def getFallbackModel (k : String) : Option String :=
  if k = "pro" then some "flash"
  else if k = "flash" then some "flash-lite"
  else if k = "flash-2" then some "flash-lite-2"
  else none

/-- Outcome of one network attempt at a tier, as classified by the
`except` clauses of `_generation_thread`: success, a
`google.api_core.exceptions.ResourceExhausted` (quota/rate limit), or any
other exception. -/
inductive CallOutcome where
  | success (text : String)
  | quota
  | fatal
deriving DecidableEq, Repr

/-- The environment the dispatch loop consults: the ledger's
`check_limit` answer per tier and the backend call result per tier. -/
structure DispatchEnv where
  checkLimit : String → Bool
  call : String → CallOutcome

/-- What `character.handle_gemini_response` receives when the loop ends. -/
inductive DispatchResult where
  /-- success at a tier: usage recorded for it, parsed response delivered -/
  | delivered (text : String) (usedTier : String)
  /-- an unexpected error: `msg_on_specific_model_failed` for this tier -/
  | specificFailure (tier : String)
  /-- loop exited with no tier left: `msg_on_all_models_failed` -/
  | allFailed
  /-- fuel ran out before the loop ended (never reached, see below) -/
  | fuelOut
deriving DecidableEq, Repr

/-- Mirrors the `while current_model_key:` loop of
`GeminiAPIHandler._generation_thread` (non-test path).  Returns the list of
tiers visited (limit-checked) and the final result.  Fuel makes the
recursion structural; fuel 3 is proved sufficient for every start tier. -/
def generationLoop (env : DispatchEnv) : Nat → Option String → List String × DispatchResult
  | _, none => ([], .allFailed)
  | 0, some _ => ([], .fuelOut)
  | fuel + 1, some k =>
    if env.checkLimit k = false then
      let r := generationLoop env fuel (getFallbackModel k)
      (k :: r.1, r.2)
    else
      match env.call k with
      | .success t => ([k], .delivered t k)
      | .quota =>
        let r := generationLoop env fuel (getFallbackModel k)
        (k :: r.1, r.2)
      | .fatal => ([k], .specificFailure k)

/-- The full tier chain starting at a key, spelled out per tier family. -/
def chainList (k : String) : List String :=
  if k = "pro" then ["pro", "flash", "flash-lite"]
  else if k = "flash" then ["flash", "flash-lite"]
  else if k = "flash-2" then ["flash-2", "flash-lite-2"]
  else [k]

/-- Length of the remaining chain from a tier; at most 3. -/
def chainDepth (k : String) : Nat :=
  if k = "pro" then 3
  else if k = "flash" then 2
  else if k = "flash-2" then 2
  else 1

/-- A concrete environment: pro is at its cap, flash hits a remote quota
error, flash-lite answers. -/
def envQuotaDemo : DispatchEnv where
  checkLimit := fun k => k ≠ "pro"
  call := fun k => if k = "flash" then .quota
    else if k = "flash-lite" then .success "ok" else .fatal

/-- A concrete environment whose every tier reports a quota error. -/
def envAllQuota : DispatchEnv where
  checkLimit := fun _ => true
  call := fun _ => .quota

/-! ## Usage ledger
    (APILogManager: _load_usage_counts, check_limit, record_usage,
     get_remaining_counts, _cleanup_old_logs) -/

/-- One line of a daily usage log file.  The source writes
"timestamp,model_key,character_name,message_type"; aggregation only reads
field 1 (the tier), so the timestamp is not modelled. -/
structure LogEntry where
  tier : String
  charName : String
  msgType : String
deriving DecidableEq, Repr

/-- The mutable ledger state: the in-memory per-tier counters
(`usage_counts`), the day encoded in the current `log_file_path` (none for
the initial empty path), and the persisted per-day log files (none = the
file does not exist).  The per-tier caps (`limits`, loaded once from
config.ini) are passed separately as an association list since nothing
mutates them. -/
structure Ledger where
  usageCounts : String → Nat
  logPathDay : Option Int
  files : Int → Option (List LogEntry)

/-- Lookup `self.limits.get(key)` on the config-loaded cap table. -/
def lookupLimit (L : List (String × Int)) (k : String) : Option Int :=
  (L.find? (fun p => p.1 = k)).map (fun p => p.2)

/-- Number of log lines recorded for a tier. -/
def tierCount (entries : List LogEntry) (k : String) : Nat :=
  (entries.filter (fun e => e.tier = k)).length

/-- The counter table `_load_usage_counts` rebuilds from a log file:
counters exist exactly for the configured tiers, each the number of that
tier's lines. -/
def aggCounts (L : List (String × Int)) (entries : List LogEntry) : String → Nat :=
  fun k => if (lookupLimit L k).isSome then tierCount entries k else 0

/-- Mirrors `APILogManager._load_usage_counts` (with `_cleanup_old_logs`):
if the stored log path is not today's, switch the path, reset the counters
and delete all other days' files; then, if today's file exists, re-aggregate
the counters from it. -/
def loadUsageCounts (L : List (String × Int)) (s : Ledger) (today : Int) : Ledger :=
  let s1 := if s.logPathDay = some today then s
    else { s with logPathDay := some today,
                  usageCounts := fun _ => 0,
                  files := fun d => if d = today then s.files d else none }
  match s1.files today with
  | none => s1
  | some entries => { s1 with usageCounts := aggCounts L entries }

/-- Mirrors `APILogManager.check_limit`: reload, then compare the counter
against the cap (`float('inf')` for an unconfigured tier, i.e. always
allowed).  Returns the state after the embedded reload plus the answer. -/
def checkLimit (L : List (String × Int)) (s : Ledger) (today : Int) (k : String) :
    Ledger × Bool :=
  let s2 := loadUsageCounts L s today
  match lookupLimit L k with
  | some cap => (s2, decide ((s2.usageCounts k : Int) < cap))
  | none => (s2, true)

/-- Mirrors `APILogManager.record_usage`: increment the in-memory counter,
then append one line to the current log file (if the path is still the
initial empty string, the file write fails and is swallowed). -/
def recordUsage (s : Ledger) (k charName msgType : String) : Ledger :=
  let s1 := { s with usageCounts :=
    fun a => if a = k then s.usageCounts a + 1 else s.usageCounts a }
  match s1.logPathDay with
  | some d =>
    { s1 with files := fun e =>
        if e = d then some ((s1.files e).getD [] ++ [⟨k, charName, msgType⟩])
        else s1.files e }
  | none => s1

/-- Mirrors `APILogManager.get_remaining_counts`: reload, then map each
configured tier to cap minus counter. -/
def getRemainingCounts (L : List (String × Int)) (s : Ledger) (today : Int) :
    Ledger × (String → Option Int) :=
  let s2 := loadUsageCounts L s today
  (s2, fun k => (lookupLimit L k).map (fun cap => cap - (s2.usageCounts k : Int)))

/-- The ledger as built by `APILogManager.__init__` before its initial
`_load_usage_counts`: zero counters, empty log path, no files on disk. -/
def initLedger : Ledger where
  usageCounts := fun _ => 0
  logPathDay := none
  files := fun _ => none

/-- Ledger states reachable through the APILogManager interface as the
dispatcher drives it: the constructor's initial load, limit checks,
remaining-count queries, and — only directly after a successful limit check
for the same tier, as in `_generation_thread` — a usage recording. -/
inductive LReach (L : List (String × Int)) : Ledger → Prop
  | init (d0 : Int) : LReach L (loadUsageCounts L initLedger d0)
  | check (s : Ledger) (today : Int) (k : String) :
      LReach L s → LReach L (checkLimit L s today k).1
  | remaining (s : Ledger) (today : Int) :
      LReach L s → LReach L (getRemainingCounts L s today).1
  | record (s : Ledger) (today : Int) (k charName msgType : String) :
      LReach L s → (checkLimit L s today k).2 = true →
      LReach L (recordUsage (checkLimit L s today k).1 k charName msgType)

/-- Invariant tying the in-memory counters to the persisted files: the log
path names some day, no other day's file exists, every configured tier's
counter equals its line count in that day's file, and that line count never
exceeds the (nonnegative part of the) cap. -/
def LedgerInv (L : List (String × Int)) (s : Ledger) : Prop :=
  ∃ d, s.logPathDay = some d ∧
    (∀ e, e ≠ d → s.files e = none) ∧
    (∀ k, (lookupLimit L k).isSome →
      s.usageCounts k = tierCount ((s.files d).getD []) k) ∧
    (∀ k cap, lookupLimit L k = some cap →
      (tierCount ((s.files d).getD []) k : Int) ≤ max cap 0)

/-- Concrete cap table for the ledger witnesses. -/
def capsDemo : List (String × Int) := [("pro", 2), ("flash", 3)]

/-- The ledger state right after `APILogManager.__init__` on day 0 with no
log files on disk. -/
def ledgerDay0 : Ledger := loadUsageCounts capsDemo initLedger 0

/-- A ledger whose log path still points at day 0 while one pro call is
recorded; checking a limit on day 1 then triggers the rollover. -/
def ledgerRolloverDemo : Ledger where
  usageCounts := fun k => if k = "pro" then 1 else 0
  logPathDay := some 0
  files := fun d => if d = 0 then some [⟨"pro", "A", "応答"⟩] else none

/-! ## Conversation coordinator
    (DesktopMascot.handle_response_from_character,
     perform_synchronized_update / on_finish_callback, request_speech,
     check_api_timeout, trigger_auto_speech,
     BehaviorManager.check_auto_speech,
     CharacterController.update_favorability) -/

/-- Character index (the app runs one or two characters). -/
abbrev AgentId := Nat

/-- A protobuf argument value as the source consumes it (string, number,
boolean, or repeated-string list for memory_ids). -/
inductive ArgVal where
  | str (s : String)
  | int (n : Int)
  | bool (b : Bool)
  | strList (xs : List String)
deriving DecidableEq, Repr

/-- Python truthiness of an argument value. -/
def ArgVal.truthy : ArgVal → Bool
  | .str s => s != ""
  | .int n => n != 0
  | .bool b => b
  | .strList xs => !xs.isEmpty

/-- One entry of `detected_function_calls`. -/
structure FunctionCall where
  name : String
  args : List (String × ArgVal)
deriving DecidableEq, Repr

/-- Lookup of one argument, `call['args'].get(key)`. -/
def getArg (args : List (String × ArgVal)) (k : String) : Option ArgVal :=
  (args.find? (fun p => p.1 = k)).map (fun p => p.2)

/-- Digit string to number (base 10). -/
def digitsToNat (l : List Char) : Nat :=
  l.foldl (fun acc c => 10 * acc + (c.toNat - 48)) 0

/-- Python `str.strip()`: drop whitespace from both ends (spelled out on
the character list so that it reduces definitionally). -/
def stripWhite (l : List Char) : List Char :=
  ((l.dropWhile Char.isWhitespace).reverse.dropWhile Char.isWhitespace).reverse

/-- Python `str.lower()`. -/
def pyLower (s : String) : String := String.mk (s.data.map Char.toLower)

/-- Python `int(str)`: optional surrounding whitespace, optional sign,
then decimal digits; anything else raises ValueError (modelled as none). -/
def pyIntOfString (s : String) : Option Int :=
  match stripWhite s.data with
  | [] => none
  | c :: rest =>
    if c = '-' then
      if !rest.isEmpty && rest.all Char.isDigit then
        some (-(digitsToNat rest : Int))
      else none
    else if c = '+' then
      if !rest.isEmpty && rest.all Char.isDigit then
        some ((digitsToNat rest : Int))
      else none
    else
      if (c :: rest).all Char.isDigit then
        some ((digitsToNat (c :: rest) : Int))
      else none

/-- Python `int(x)` on an argument value: ints pass through, numeric
strings are parsed, bools coerce to 0/1, anything else raises
ValueError/TypeError (none). -/
def pyToInt : ArgVal → Option Int
  | .int n => some n
  | .str s => pyIntOfString s
  | .bool b => some (if b then 1 else 0)
  | .strList _ => none

/-- String value of an argument; a non-string where the source expects a
string raises inside the worker thread (caught upstream as a generic
error), which no claim exercises — modelled as the default. -/
def asStrOr (v : Option ArgVal) (dflt : String) : String :=
  match v with
  | some (.str s) => s
  | some _ => dflt
  | none => dflt

/-- Scan to just after the next occurrence of the closing character, as
the non-greedy bracket regexps of `_filter_ai_response` do. -/
def dropThroughClose (close : Char) : List Char → Option (List Char)
  | [] => none
  | c :: t => if c = close then some t else dropThroughClose close t

/-- First substitution of `DesktopMascot._filter_ai_response`: delete
fullwidth （…） and ASCII (…) groups (an unmatched opener is kept). -/
def stripParensAux : Nat → List Char → List Char
  | 0, l => l
  | _ + 1, [] => []
  | fuel + 1, c :: rest =>
    if c = '（' then
      match dropThroughClose '）' rest with
      | some t => stripParensAux fuel t
      | none => c :: stripParensAux fuel rest
    else if c = '(' then
      match dropThroughClose ')' rest with
      | some t => stripParensAux fuel t
      | none => c :: stripParensAux fuel rest
    else c :: stripParensAux fuel rest

def emoStart (c : Char) : Bool := c = ':' || c = ';' || c = '=' || c = '8'

def emoMid (c : Char) : Bool := c = '-' || c = 'o' || c = '*' || c = Char.ofNat 39

def emoClose (c : Char) : Bool :=
  c = ')' || c = ']' || c = '(' || c = '[' || c = 'd' || c = 'D' ||
  c = 'p' || c = 'P' || c = '/' || c = '\\'

/-- Second substitution of `_filter_ai_response`: delete two- or
three-character emoticons (eyes-mouth or mouth-eyes). -/
def stripEmoticonsAux : Nat → List Char → List Char
  | 0, l => l
  | _ + 1, [] => []
  | fuel + 1, c0 :: rest =>
    match rest with
    | c1 :: c2 :: t =>
      if emoStart c0 && emoMid c1 && emoClose c2 then stripEmoticonsAux fuel t
      else if emoStart c0 && emoClose c1 then stripEmoticonsAux fuel (c2 :: t)
      else if emoClose c0 && emoMid c1 && emoStart c2 then stripEmoticonsAux fuel t
      else if emoClose c0 && emoStart c1 then stripEmoticonsAux fuel (c2 :: t)
      else c0 :: stripEmoticonsAux fuel rest
    | [c1] =>
      if emoStart c0 && emoClose c1 then []
      else if emoClose c0 && emoStart c1 then []
      else c0 :: stripEmoticonsAux fuel rest
    | [] => [c0]

/-- Mirrors `DesktopMascot._filter_ai_response`: strip stage directions in
brackets, strip emoticons, then strip surrounding whitespace. -/
def filterAiResponse (s : String) : String :=
  let l1 := stripParensAux (s.data.length + 1) s.data
  let l2 := stripEmoticonsAux (l1.length + 1) l1
  String.mk (stripWhite l2)

/-- Mirrors `CharacterController.update_favorability` with its default
`apply_limit=True`: the delta is clamped to [-25, 25] before applying. -/
def updateFavorability (fav : Int) (changeValue : Int) : Int :=
  fav + max (-25) (min 25 changeValue)

/-- Constant `DesktopMascot.MAX_RALLY_COUNT`. -/
def MAX_RALLY_COUNT : Nat := 3

/-- Constant `DesktopMascot.API_TIMEOUT_SECONDS`. -/
def API_TIMEOUT_SECONDS : Nat := 30

/-- The per-run configuration the coordinator reads but never writes. -/
structure CoordConfig where
  isChar2Enabled : Bool
  partner : AgentId → AgentId
  /-- `speaker.available_emotions` (english key → japanese label) -/
  availableEmotions : AgentId → List (String × String)
  msgOnEmptyResponse : AgentId → String
  msgOnApiTimeout : AgentId → String
  hasCharacters : Bool
  autoSpeechEnabled : Bool

def lookupEmotion (m : List (String × String)) (k : String) : Option String :=
  (m.find? (fun p => p.1 = k)).map (fun p => p.2)

/-- The coordinator's mutable fields used on the response path. -/
structure MState where
  curSpeaker : Option AgentId
  lastApiRequestTime : Option Nat
  lockHeld : Bool
  isInRally : Bool
  currentRallyCount : Nat
  favorability : AgentId → Int
  postSpeechCallback : Bool
  preventCoolDownReset : Bool
  isUserAway : Bool

/-- Externally visible side effects (UI, logging, memory, network). -/
inductive MAction where
  | speak (sp : AgentId) (text : String) (emotionJp : String) (passTurn : Bool)
  | scheduleCostumeChange (sp : AgentId) (costumeId : ArgVal)
  | memStore (sp : AgentId) (summary : ArgVal) (score : Int)
  | memAck (sp : AgentId) (ids : List String)
  | logEvent (src : AgentId) (toPartner : Bool) (text : String)
  | dispatchRequest (sp : AgentId) (messageType : String)
deriving DecidableEq, Repr

/-- Loop variables of the `for call in detected_function_calls` loop. -/
structure ParseAcc where
  speechText : String
  emotionJp : String
  passTurn : Bool
  favorability : Int
  actions : List MAction

/-- One iteration of the call-dispatching loop of
`handle_response_from_character` (the if/elif chain on `call['name']`);
unrecognized call names fall through unchanged. -/
def processCall (cfg : CoordConfig) (sp : AgentId) (acc : ParseAcc)
    (call : FunctionCall) : ParseAcc :=
  if call.name = "generate_speech" then
    { acc with speechText := asStrOr (getArg call.args "speech_text") "" }
  else if call.name = "change_emotion" then
    let emotionEn := pyLower (asStrOr (getArg call.args "emotion") "normal")
    { acc with emotionJp :=
        (lookupEmotion (cfg.availableEmotions sp) emotionEn).getD acc.emotionJp }
  else if call.name = "pass_turn_to_partner" then
    { acc with passTurn := ((getArg call.args "continue_rally").map ArgVal.truthy).getD false }
  else if call.name = "change_favorability" then
    match getArg call.args "change_value" with
    | none => acc
    | some v =>
      match pyToInt v with
      | some n => { acc with favorability := updateFavorability acc.favorability n }
      | none => acc
  else if call.name = "change_costume" then
    match getArg call.args "costume_id" with
    | some cid =>
      if cid.truthy then
        { acc with actions := acc.actions ++ [.scheduleCostumeChange sp cid] }
      else acc
    | none => acc
  else if call.name = "evaluate_and_store_memory" then
    if ((getArg call.args "is_important").map ArgVal.truthy).getD false then
      match getArg call.args "importance_score", getArg call.args "summary" with
      | some score, some summary =>
        if summary.truthy then
          match pyToInt score with
          | some n => { acc with actions := acc.actions ++ [.memStore sp summary n] }
          | none => acc
        else acc
      | some _, none => acc
      | none, _ => acc
    else acc
  else if call.name = "acknowledge_referenced_memories" then
    match getArg call.args "memory_ids" with
    | some v =>
      if v.truthy then
        match v with
        | .strList ids => { acc with actions := acc.actions ++ [.memAck sp ids] }
        | .str s => { acc with actions :=
            acc.actions ++ [.memAck sp (s.data.map (fun c => String.mk [c]))] }
        | _ => acc
      else acc
    | none => acc
  else acc

/-- How `handle_response_from_character` continues after the loop: either
the costume-change-only early return, or scheduling
`perform_synchronized_update` with the final speech. -/
inductive HandleOutcome where
  | costumeOnlyExit
  | speak (text : String) (emotionJp : String) (passTurn : Bool)
deriving DecidableEq, Repr

/-- The call names the response loop recognizes. -/
def recognizedCallNames : List String :=
  ["generate_speech", "change_emotion", "pass_turn_to_partner",
   "change_favorability", "change_costume", "evaluate_and_store_memory",
   "acknowledge_referenced_memories"]

/-- Mirrors `DesktopMascot.handle_response_from_character` up to the point
where `perform_synchronized_update` is scheduled: clear the in-flight
bookkeeping (unconditionally, with no identity check of the incoming
response), synthesize a speech call from free text when the protocol was
ignored, run the call loop, filter the speech, and handle the empty-speech
cases. -/
def handleResponseCore (cfg : CoordConfig) (S : MState) (sp : AgentId)
    (finalText : String) (calls : List FunctionCall) :
    MState × List MAction × HandleOutcome :=
  let calls2 :=
    if (calls.isEmpty || !(calls.any (fun c => c.name == "generate_speech")))
        && !(stripWhite finalText.data).isEmpty then
      calls ++ [⟨"generate_speech", [("speech_text", .str finalText)]⟩]
    else calls
  let acc0 : ParseAcc :=
    { speechText := ""
      emotionJp := (lookupEmotion (cfg.availableEmotions sp) "normal").getD "normal"
      passTurn := false
      favorability := S.favorability sp
      actions := [] }
  let acc := calls2.foldl (processCall cfg sp) acc0
  let S2 : MState :=
    { S with curSpeaker := none, lastApiRequestTime := none,
             favorability := fun a => if a = sp then acc.favorability else S.favorability a }
  let filtered := filterAiResponse acc.speechText
  if filtered = "" then
    if (calls2.any (fun c => c.name == "change_costume")) && (acc.speechText == "") then
      ({ S2 with lockHeld := false }, acc.actions, .costumeOnlyExit)
    else
      let fallbackText := cfg.msgOnEmptyResponse sp
      let emotion2 := (lookupEmotion (cfg.availableEmotions sp) "troubled").getD
        ((lookupEmotion (cfg.availableEmotions sp) "normal").getD "normal")
      let toPartner := false && cfg.isChar2Enabled
      let pass3 := if MAX_RALLY_COUNT ≤ S2.currentRallyCount then false else false
      (S2, acc.actions ++ [.logEvent sp toPartner fallbackText],
        .speak fallbackText emotion2 pass3)
  else
    let toPartner := acc.passTurn && cfg.isChar2Enabled
    let pass3 := if MAX_RALLY_COUNT ≤ S2.currentRallyCount then false else acc.passTurn
    (S2, acc.actions ++ [.logEvent sp toPartner filtered],
      .speak filtered acc.emotionJp pass3)

/-- The Gemma emotion completion (lines following the rally-count check):
when no emotion call changed the default, an external analysis may replace
it, but only with a label available for the current costume. -/
def applyGemmaCompletion (cfg : CoordConfig) (sp : AgentId) (emotionJp : String)
    (gemma : Option String) : String :=
  if emotionJp = (lookupEmotion (cfg.availableEmotions sp) "normal").getD "normal" then
    match gemma with
    | some jp => if (cfg.availableEmotions sp).any (fun p => p.2 == jp) then jp else emotionJp
    | none => emotionJp
  else emotionJp

/-- Mirrors `DesktopMascot.request_speech` (the bookkeeping it performs;
prompt assembly feeds the dispatch request). -/
def requestSpeech (S : MState) (sp : AgentId) (msgType : String) (now : Nat) :
    MState × List MAction :=
  ({ S with curSpeaker := some sp, lastApiRequestTime := some now },
   [.dispatchRequest sp msgType])

/-- Mirrors `on_finish_callback` inside `perform_synchronized_update` plus
the cooldown bookkeeping: a pending one-shot post-speech callback wins;
otherwise a turn-pass with a second character present continues the rally;
otherwise the exchange settles and the lock is released. -/
def onFinishCallback (cfg : CoordConfig) (S : MState) (sp : AgentId)
    (text : String) (passTurn : Bool) (now : Nat) : MState × List MAction :=
  if S.postSpeechCallback then
    ({ S with postSpeechCallback := false }, [])
  else if cfg.isChar2Enabled && passTurn then
    requestSpeech
      { S with isInRally := true, currentRallyCount := S.currentRallyCount + 1 }
      (cfg.partner sp) "ラリー" now
  else
    ({ S with isInRally := false, preventCoolDownReset := false,
              currentRallyCount := 0, lockHeld := false }, [])

/-- One response-arrival event: `handle_response_from_character` followed
(for the non-early-return case) by the scheduled
`perform_synchronized_update` and its `on_finish_callback`.  `gemma` is
the outcome of the external emotion analysis. -/
def stepRespond (cfg : CoordConfig) (S : MState) (sp : AgentId)
    (finalText : String) (calls : List FunctionCall) (gemma : Option String)
    (now : Nat) : MState × List MAction :=
  match handleResponseCore cfg S sp finalText calls with
  | (S2, acts, .costumeOnlyExit) => (S2, acts)
  | (S2, acts, .speak text emo passTurn) =>
    let emo2 := applyGemmaCompletion cfg sp emo gemma
    let r := onFinishCallback cfg S2 sp text passTurn now
    (r.1, acts ++ [.speak sp text emo2 passTurn] ++ r.2)

/-- Mirrors `DesktopMascot.check_api_timeout` (run every second by
`BehaviorManager.schedule_api_timeout_check`): when the in-flight request
is older than the ceiling, clear the bookkeeping, release the lock, and
surface the speaker's timeout message. -/
def checkApiTimeout (cfg : CoordConfig) (S : MState) (now : Nat) :
    MState × List MAction :=
  match S.curSpeaker, S.lastApiRequestTime with
  | some sp, some t0 =>
    if API_TIMEOUT_SECONDS < now - t0 then
      let S1 := { S with curSpeaker := none, lastApiRequestTime := none,
                         lockHeld := false }
      let errText := cfg.msgOnApiTimeout sp
      let emo := (lookupEmotion (cfg.availableEmotions sp) "troubled").getD "normal"
      let r := onFinishCallback cfg S1 sp errText false now
      (r.1, [.speak sp errText emo false] ++ r.2)
    else (S, [])
  | _, _ => (S, [])

/-- Mirrors `BehaviorManager.check_auto_speech` and the
`trigger_auto_speech` it may invoke: a trigger is dropped (not queued)
unless auto speech is on, nobody is away or mid-rally, the processing lock
is free and the cooldown has elapsed; then the lock is acquired and a
dispatch begins for the frequency-selected speaker. -/
def checkAutoSpeech (cfg : CoordConfig) (S : MState) (coolOk : Bool)
    (selected : Option AgentId) (now : Nat) : MState × List MAction :=
  if !cfg.autoSpeechEnabled then (S, [])
  else if S.isUserAway || S.isInRally || S.lockHeld then (S, [])
  else if !cfg.hasCharacters then (S, [])
  else if !coolOk then (S, [])
  else
    let S1 := { S with lockHeld := true, isInRally := false, currentRallyCount := 0 }
    match selected with
    | none => ({ S1 with lockHeld := false }, [])
    | some sp => requestSpeech S1 sp "自動発言" now

/-- The coordinator fields as initialised in `DesktopMascot.__init__`. -/
def initMState (f0 : AgentId → Int) : MState where
  curSpeaker := none
  lastApiRequestTime := none
  lockHeld := false
  isInRally := false
  currentRallyCount := 0
  favorability := f0
  postSpeechCallback := false
  preventCoolDownReset := false
  isUserAway := false

/-- Coordinator states reachable from startup under the trigger-driven
event alphabet: auto-speech checks, response arrivals (including spurious
or late ones), and watchdog ticks.  Events interleave arbitrarily. -/
inductive CReach (cfg : CoordConfig) (f0 : AgentId → Int) : MState → Prop
  | init : CReach cfg f0 (initMState f0)
  | auto (S : MState) (coolOk : Bool) (sel : Option AgentId) (now : Nat) :
      CReach cfg f0 S → CReach cfg f0 (checkAutoSpeech cfg S coolOk sel now).1
  | respond (S : MState) (sp : AgentId) (text : String)
      (calls : List FunctionCall) (gemma : Option String) (now : Nat) :
      CReach cfg f0 S → CReach cfg f0 (stepRespond cfg S sp text calls gemma now).1
  | watchdog (S : MState) (now : Nat) :
      CReach cfg f0 S → CReach cfg f0 (checkApiTimeout cfg S now).1

/-- The pass-turn decision carried by a handler outcome. -/
def outcomePassTurn : HandleOutcome → Bool
  | .costumeOnlyExit => false
  | .speak _ _ p => p

/-- Concrete configuration for the coordinator witnesses. -/
def cfgDemo : CoordConfig where
  isChar2Enabled := true
  partner := fun a => 1 - a
  availableEmotions := fun _ => [("normal", "通常"), ("troubled", "困った"), ("joy", "喜び")]
  msgOnEmptyResponse := fun _ => "うまく言葉が出てきません…"
  msgOnApiTimeout := fun _ => "応答に時間がかかりすぎています…"
  hasCharacters := true
  autoSpeechEnabled := true

/-- A coordinator state mid-rally at the cap, with the lock held. -/
def rallyCapState : MState :=
  { initMState (fun _ => 0) with
      lockHeld := true, isInRally := true, currentRallyCount := 3 }

/-- An explicit `pass_turn_to_partner(continue_rally=True)` call. -/
def passTurnTrueCall : FunctionCall :=
  ⟨"pass_turn_to_partner", [("continue_rally", .bool true)]⟩

/-- The state after an accepted auto-speech trigger from startup: agent 0
dispatched, lock held. -/
def dispatchedDemo : MState :=
  (checkAutoSpeech cfgDemo (initMState (fun _ => 0)) true (some 0) 7).1

/-- A state whose processing lock is held. -/
def lockedDemo : MState := { initMState (fun _ => 0) with lockHeld := true }

/-- The in-flight state the watchdog then times out. -/
def inflightDemo : MState :=
  { initMState (fun _ => 0) with
      curSpeaker := some 0, lastApiRequestTime := some 0, lockHeld := true }

/-- The state after the watchdog force-resolved `inflightDemo` at t=40s. -/
def postWatchdogDemo : MState := (checkApiTimeout cfgDemo inflightDemo 40).1

/-- Whether an action is a speech emission. -/
def isSpeakAction : MAction → Bool
  | .speak _ _ _ _ => true
  | _ => false

/-- The single favorability call as the model would send it. -/
def favCall (v : ArgVal) : FunctionCall :=
  ⟨"change_favorability", [("change_value", v)]⟩

theorem chainList_head (k : String) : ∃ t, chainList k = k :: t := by
  unfold chainList
  by_cases h1 : k = "pro" <;> by_cases h2 : k = "flash" <;>
    by_cases h3 : k = "flash-2" <;> simp_all

theorem chainList_fallback_some {k k' : String}
    (h : getFallbackModel k = some k') : chainList k = k :: chainList k' := by
  unfold getFallbackModel at h
  by_cases h1 : k = "pro"
  · simp [h1] at h; subst h1; simp [chainList, ← h]
  · by_cases h2 : k = "flash"
    · simp [h1, h2] at h; subst h2; simp [chainList, ← h]
    · by_cases h3 : k = "flash-2"
      · simp [h1, h2, h3] at h; subst h3; simp [chainList, ← h]
      · simp [h1, h2, h3] at h

theorem chainList_fallback_none {k : String}
    (h : getFallbackModel k = none) : chainList k = [k] := by
  unfold getFallbackModel at h
  by_cases h1 : k = "pro" <;> by_cases h2 : k = "flash" <;>
    by_cases h3 : k = "flash-2" <;> simp_all [chainList]

theorem chainList_nodup (k : String) : (chainList k).Nodup := by
  unfold chainList
  by_cases h1 : k = "pro" <;> by_cases h2 : k = "flash" <;>
    by_cases h3 : k = "flash-2" <;> simp_all

/-- The tiers visited by the dispatch loop form a prefix of the chain. -/
theorem generationLoop_visits_chain (env : DispatchEnv) :
    ∀ (fuel : Nat) (k : String),
      ∃ t, chainList k = (generationLoop env fuel (some k)).1 ++ t := by
  intro fuel
  induction fuel with
  | zero => intro k; exact ⟨chainList k, rfl⟩
  | succ n ih =>
    intro k
    unfold generationLoop
    by_cases hc : env.checkLimit k = false
    · simp only [hc, if_pos rfl]
      cases hf : getFallbackModel k with
      | none =>
        simp only [hf, generationLoop]
        exact ⟨[], by simp [chainList_fallback_none hf]⟩
      | some k' =>
        obtain ⟨t, ht⟩ := ih k'
        exact ⟨t, by simp [chainList_fallback_some hf, ht]⟩
    · rw [if_neg hc]
      cases hcall : env.call k with
      | success txt =>
        obtain ⟨t0, ht0⟩ := chainList_head k
        exact ⟨t0, by simp [ht0]⟩
      | quota =>
        cases hf : getFallbackModel k with
        | none =>
          simp only [hf, generationLoop]
          exact ⟨[], by simp [chainList_fallback_none hf]⟩
        | some k' =>
          obtain ⟨t, ht⟩ := ih k'
          exact ⟨t, by simp [chainList_fallback_some hf, ht]⟩
      | fatal =>
        obtain ⟨t0, ht0⟩ := chainList_head k
        exact ⟨t0, by simp [ht0]⟩

theorem chainDepth_le_three (k : String) : chainDepth k ≤ 3 := by
  unfold chainDepth
  by_cases h1 : k = "pro" <;> by_cases h2 : k = "flash" <;>
    by_cases h3 : k = "flash-2" <;> simp_all

theorem chainDepth_fallback {k k' : String}
    (h : getFallbackModel k = some k') : chainDepth k' < chainDepth k := by
  unfold getFallbackModel at h
  by_cases h1 : k = "pro"
  · simp [h1] at h; subst h1; simp [chainDepth, ← h]
  · by_cases h2 : k = "flash"
    · simp [h1, h2] at h; subst h2; simp [chainDepth, ← h]
    · by_cases h3 : k = "flash-2"
      · simp [h1, h2, h3] at h; subst h3; simp [chainDepth, ← h]
      · simp [h1, h2, h3] at h

theorem generationLoop_no_fuelOut (env : DispatchEnv) :
    ∀ (fuel : Nat) (k : String), chainDepth k ≤ fuel →
      (generationLoop env fuel (some k)).2 ≠ .fuelOut := by
  intro fuel
  induction fuel with
  | zero =>
    intro k hk
    unfold chainDepth at hk
    by_cases h1 : k = "pro" <;> by_cases h2 : k = "flash" <;>
      by_cases h3 : k = "flash-2" <;> simp_all
  | succ n ih =>
    intro k _
    unfold generationLoop
    have hnext : ∀ k', getFallbackModel k = some k' →
        (generationLoop env n (some k')).2 ≠ .fuelOut := by
      intro k' hf
      have hd := chainDepth_fallback hf
      exact ih k' (by omega)
    by_cases hc : env.checkLimit k = false
    · simp only [hc, if_pos rfl]
      cases hf : getFallbackModel k with
      | none => simp [generationLoop]
      | some k' => simpa using hnext k' hf
    · rw [if_neg hc]
      cases hcall : env.call k with
      | success txt => simp
      | quota =>
        cases hf : getFallbackModel k with
        | none => simp [generationLoop]
        | some k' => simpa using hnext k' hf
      | fatal => simp

/-- C3: for any requested tier, the dispatch loop with fuel 3 terminates
(never runs out of fuel), the tiers it visits are pairwise distinct (no
tier is re-visited within one exchange), and the fallback mapping is the
fixed acyclic chain pro→flash→flash-lite→none, flash-2→flash-lite-2→none. -/
theorem dispatch_terminates_and_never_revisits (env : DispatchEnv) (k : String) :
    (generationLoop env 3 (some k)).2 ≠ .fuelOut ∧
    (generationLoop env 3 (some k)).1.Nodup ∧
    getFallbackModel "pro" = some "flash" ∧
    getFallbackModel "flash" = some "flash-lite" ∧
    getFallbackModel "flash-lite" = none ∧
    getFallbackModel "flash-2" = some "flash-lite-2" ∧
    getFallbackModel "flash-lite-2" = none := by
  refine ⟨generationLoop_no_fuelOut env 3 k (chainDepth_le_three k), ?_,
    by decide, by decide, by decide, by decide, by decide⟩
  obtain ⟨t, ht⟩ := generationLoop_visits_chain env 3 k
  have hnd := chainList_nodup k
  rw [ht] at hnd
  exact (List.nodup_append.mp hnd).1

/-- C4: the dispatch loop's error policy.  (a) A quota/rate-limit error at a
tier silently advances to that tier's fallback: the final result is exactly
the result of dispatching from the fallback tier (no user-visible error is
produced at the failing tier).  (b) Any other error aborts the whole chain
immediately with the tier-specific failure message; no further tier is
visited.  (c) The generic all-tiers-failed result occurs only when every
visited tier was exhausted (limit reached or quota error) — none succeeded
or failed fatally. -/
theorem generationLoop_succ_some (env : DispatchEnv) (fuel : Nat) (k : String) :
    generationLoop env (fuel + 1) (some k) =
      (if env.checkLimit k = false then
        (k :: (generationLoop env fuel (getFallbackModel k)).1,
         (generationLoop env fuel (getFallbackModel k)).2)
      else match env.call k with
        | .success t => ([k], .delivered t k)
        | .quota =>
          (k :: (generationLoop env fuel (getFallbackModel k)).1,
           (generationLoop env fuel (getFallbackModel k)).2)
        | .fatal => ([k], .specificFailure k)) := rfl

/-- C4: the dispatch loop's error policy.  (a) A quota/rate-limit error at a
tier silently advances to that tier's fallback: the final result is exactly
the result of dispatching from the fallback tier (no user-visible error is
produced at the failing tier).  (b) Any other error aborts the whole chain
immediately with the tier-specific failure message; no further tier is
visited.  (c) The generic all-tiers-failed result occurs only when every
visited tier was exhausted (limit reached or quota error) — none succeeded
or failed fatally. -/
theorem dispatch_error_policy :
    (∀ (env : DispatchEnv) (k : String) (fuel : Nat),
      env.checkLimit k = true → env.call k = .quota →
      generationLoop env (fuel + 1) (some k) =
        (k :: (generationLoop env fuel (getFallbackModel k)).1,
         (generationLoop env fuel (getFallbackModel k)).2)) ∧
    (∀ (env : DispatchEnv) (k : String) (fuel : Nat),
      env.checkLimit k = true → env.call k = .fatal →
      generationLoop env (fuel + 1) (some k) = ([k], .specificFailure k)) ∧
    (∀ (env : DispatchEnv) (fuel : Nat) (cur : Option String),
      (generationLoop env fuel cur).2 = .allFailed →
      ∀ x ∈ (generationLoop env fuel cur).1,
        env.checkLimit x = false ∨ env.call x = .quota) := by
  refine ⟨?_, ?_, ?_⟩
  · intro env k fuel hc hq
    rw [generationLoop_succ_some, if_neg (by simp [hc]), hq]
  · intro env k fuel hc hf
    rw [generationLoop_succ_some, if_neg (by simp [hc]), hf]
  · intro env fuel
    induction fuel with
    | zero =>
      intro cur h x hx
      cases cur <;> simp [generationLoop] at hx
    | succ n ih =>
      intro cur h x hx
      cases cur with
      | none => simp [generationLoop] at hx
      | some k =>
        rw [generationLoop_succ_some] at h hx
        by_cases hc : env.checkLimit k = false
        · rw [if_pos hc] at h hx
          simp only [List.mem_cons] at hx
          rcases hx with rfl | hx
          · exact Or.inl hc
          · exact ih (getFallbackModel k) h x hx
        · rw [if_neg hc] at h hx
          cases hcall : env.call k with
          | success txt => rw [hcall] at h; simp at h
          | quota =>
            rw [hcall] at h hx
            simp only [List.mem_cons] at hx
            rcases hx with rfl | hx
            · exact Or.inr hcall
            · exact ih (getFallbackModel k) h x hx
          | fatal => rw [hcall] at h; simp at h

/-- Witness for `dispatch_error_policy` at concrete inputs: flash's quota
error advances to flash-lite which succeeds, a fatal error at flash-lite
aborts with the tier-specific failure, and an all-quota run ends in the
generic all-failed result with every visited tier quota-erroring. -/
theorem dispatch_error_policy_witness :
    generationLoop envQuotaDemo 2 (some "flash") =
      ("flash" :: (generationLoop envQuotaDemo 1 (getFallbackModel "flash")).1,
       (generationLoop envQuotaDemo 1 (getFallbackModel "flash")).2) ∧
    generationLoop envAllQuota 1 (some "flash-lite") = (["flash-lite"], .allFailed) ∧
    (∀ x ∈ (generationLoop envAllQuota 3 (some "pro")).1,
      envAllQuota.checkLimit x = false ∨ envAllQuota.call x = .quota) := by
  refine ⟨dispatch_error_policy.1 envQuotaDemo "flash" 1 (by decide) (by decide),
    ?_, dispatch_error_policy.2.2 envAllQuota 3 (some "pro") (by decide)⟩
  decide

theorem loadUsageCounts_same_none {L : List (String × Int)} {s : Ledger} {today : Int}
    (hd : s.logPathDay = some today) (hf : s.files today = none) :
    loadUsageCounts L s today = s := by
  unfold loadUsageCounts
  simp [hd, hf]

theorem loadUsageCounts_same_some {L : List (String × Int)} {s : Ledger} {today : Int}
    {es : List LogEntry} (hd : s.logPathDay = some today) (hf : s.files today = some es) :
    loadUsageCounts L s today = { s with usageCounts := aggCounts L es } := by
  unfold loadUsageCounts
  simp [hd, hf]

theorem loadUsageCounts_roll_none {L : List (String × Int)} {s : Ledger} {today : Int}
    (hd : ¬s.logPathDay = some today) (hf : s.files today = none) :
    loadUsageCounts L s today =
      { usageCounts := fun _ => 0, logPathDay := some today,
        files := fun d => if d = today then s.files d else none } := by
  unfold loadUsageCounts
  simp [hd, hf]

theorem loadUsageCounts_roll_some {L : List (String × Int)} {s : Ledger} {today : Int}
    {es : List LogEntry} (hd : ¬s.logPathDay = some today) (hf : s.files today = some es) :
    loadUsageCounts L s today =
      { usageCounts := aggCounts L es, logPathDay := some today,
        files := fun d => if d = today then s.files d else none } := by
  unfold loadUsageCounts
  simp [hd, hf]

theorem loadUsageCounts_inv (L : List (String × Int)) (s : Ledger) (today : Int)
    (h : LedgerInv L s ∨ s = initLedger) :
    LedgerInv L (loadUsageCounts L s today) := by
  by_cases hd : s.logPathDay = some today
  · rcases h with ⟨d, hpath, hothers, hsync, hbound⟩ | rfl
    · obtain rfl : d = today := by rw [hpath] at hd; injection hd
      cases hf : s.files d with
      | none => rw [loadUsageCounts_same_none hd hf]; exact ⟨d, hpath, hothers, hsync, hbound⟩
      | some es =>
        rw [loadUsageCounts_same_some hd hf]
        refine ⟨d, hpath, hothers, ?_, ?_⟩
        · intro k hk
          simp [aggCounts, hk, hf]
        · intro k cap hk
          have hb := hbound k cap hk
          simp only [hf, Option.getD_some] at hb ⊢
          exact hb
    · simp [initLedger] at hd
  · have hnone : s.files today = none := by
      rcases h with ⟨d, hpath, hothers, _, _⟩ | rfl
      · exact hothers today (by intro he; exact hd (he ▸ hpath))
      · rfl
    rw [loadUsageCounts_roll_none hd hnone]
    refine ⟨today, rfl, ?_, ?_, ?_⟩
    · intro e he
      by_cases h2 : e = today
      · subst h2; simp [hnone]
      · simp [h2]
    · intro k _
      simp [hnone, tierCount]
    · intro k cap _
      simp only [hnone]
      simp [tierCount]

theorem recordUsage_inv (L : List (String × Int)) (s : Ledger)
    (k charName msgType : String) (hinv : LedgerInv L s)
    (hok : ∀ cap, lookupLimit L k = some cap → (s.usageCounts k : Int) < cap) :
    LedgerInv L (recordUsage s k charName msgType) := by
  obtain ⟨d, hpath, hothers, hsync, hbound⟩ := hinv
  unfold recordUsage
  simp only [hpath]
  refine ⟨d, rfl, ?_, ?_, ?_⟩
  · intro e he
    simp [if_neg he, hothers e he]
  · intro k2 hk2
    by_cases hkk : k2 = k
    · subst hkk
      simp only [if_pos rfl, ite_true, eq_self_iff_true, Option.getD_some]
      rw [hsync k2 hk2]
      simp [tierCount, List.filter_append]
    · simp only [if_neg hkk, ite_true, eq_self_iff_true, Option.getD_some]
      rw [hsync k2 hk2]
      simp [tierCount, List.filter_append, Ne.symm hkk]
  · intro k2 cap hk2
    simp only [ite_true, eq_self_iff_true, Option.getD_some]
    by_cases hkk : k2 = k
    · subst hkk
      have hlt := hok cap hk2
      rw [hsync k2 (by simp [hk2])] at hlt
      have hcount : tierCount (((s.files d).getD []) ++
          [⟨k2, charName, msgType⟩]) k2 = tierCount ((s.files d).getD []) k2 + 1 := by
        simp [tierCount, List.filter_append]
      rw [hcount]
      have hcap : (0 : Int) ≤ cap := by
        have hnn : (0 : Int) ≤ (tierCount ((s.files d).getD []) k2 : Int) :=
          Int.natCast_nonneg _
        omega
      rw [max_eq_left hcap]
      push_cast
      omega
    · have hcount : tierCount (((s.files d).getD []) ++
          [⟨k, charName, msgType⟩]) k2 = tierCount ((s.files d).getD []) k2 := by
        simp [tierCount, List.filter_append, Ne.symm hkk]
      rw [hcount]
      exact hbound k2 cap hk2

theorem lreach_inv (L : List (String × Int)) (s : Ledger) (h : LReach L s) :
    LedgerInv L s := by
  induction h with
  | init d0 => exact loadUsageCounts_inv L initLedger d0 (Or.inr rfl)
  | check s today k _ ih =>
    unfold checkLimit
    cases hk : lookupLimit L k <;>
      simpa [hk] using loadUsageCounts_inv L s today (Or.inl ih)
  | remaining s today _ ih =>
    exact loadUsageCounts_inv L s today (Or.inl ih)
  | record s today k charName msgType _ hok ih =>
    have hload := loadUsageCounts_inv L s today (Or.inl ih)
    unfold checkLimit at hok ⊢
    cases hk : lookupLimit L k with
    | none =>
      simp only [hk]
      refine recordUsage_inv L _ k charName msgType hload ?_
      intro cap hcap
      rw [hk] at hcap; cases hcap
    | some cap0 =>
      simp only [hk] at hok ⊢
      refine recordUsage_inv L _ k charName msgType hload ?_
      intro cap hcap
      rw [hk] at hcap
      injection hcap with hcap
      subst hcap
      exact of_decide_eq_true hok

theorem loadUsageCounts_day (L : List (String × Int)) (s : Ledger) (today : Int) :
    (loadUsageCounts L s today).logPathDay = some today := by
  by_cases hd : s.logPathDay = some today
  · cases hf : s.files today with
    | none => rw [loadUsageCounts_same_none hd hf]; exact hd
    | some es => rw [loadUsageCounts_same_some hd hf]; exact hd
  · cases hf : s.files today with
    | none => rw [loadUsageCounts_roll_none hd hf]
    | some es => rw [loadUsageCounts_roll_some hd hf]

theorem loadUsageCounts_files_today (L : List (String × Int)) (s : Ledger) (today : Int) :
    (loadUsageCounts L s today).files today = s.files today := by
  by_cases hd : s.logPathDay = some today
  · cases hf : s.files today with
    | none => rw [loadUsageCounts_same_none hd hf]; exact hf
    | some es => rw [loadUsageCounts_same_some hd hf]; exact hf
  · cases hf : s.files today with
    | none => rw [loadUsageCounts_roll_none hd hf]; simp [hf]
    | some es => rw [loadUsageCounts_roll_some hd hf]; simp [hf]

/-- C6: for every configured tier (with a sane, nonnegative daily cap) and
every ledger state reachable through the manager's interface,
`get_remaining_counts` returns exactly cap minus the number of calls
recorded in today's log file for that tier, and that value is never
negative. -/
theorem remaining_counts_correct (L : List (String × Int)) (s : Ledger)
    (today : Int) (k : String) (cap : Int)
    (hreach : LReach L s) (hcap : lookupLimit L k = some cap) (hnn : 0 ≤ cap) :
    (getRemainingCounts L s today).2 k =
      some (cap - (tierCount ((s.files today).getD []) k : Int)) ∧
    0 ≤ cap - (tierCount ((s.files today).getD []) k : Int) := by
  obtain ⟨d, hpath, _, hsync, hbound⟩ :=
    loadUsageCounts_inv L s today (Or.inl (lreach_inv L s hreach))
  have hd : d = today := by
    rw [loadUsageCounts_day] at hpath
    injection hpath with h
    exact h.symm
  subst hd
  have hfiles := loadUsageCounts_files_today L s d
  have husage : (loadUsageCounts L s d).usageCounts k =
      tierCount ((s.files d).getD []) k := by
    rw [hsync k (by simp [hcap]), hfiles]
  constructor
  · show ((lookupLimit L k).map
      (fun cap => cap - ((loadUsageCounts L s d).usageCounts k : Int))) = _
    rw [hcap]
    simp [husage]
  · have hb := hbound k cap hcap
    rw [hfiles, max_eq_left hnn] at hb
    omega

/-- Witness for `remaining_counts_correct`: on the freshly initialised
ledger, queried on day 5, the remaining count for pro is its full cap. -/
theorem remaining_counts_correct_witness :
    (getRemainingCounts capsDemo ledgerDay0 5).2 "pro" =
      some (2 - (tierCount ((ledgerDay0.files 5).getD []) "pro" : Int)) ∧
    0 ≤ 2 - (tierCount ((ledgerDay0.files 5).getD []) "pro" : Int) :=
  remaining_counts_correct capsDemo ledgerDay0 5 "pro" 2
    (LReach.init 0) (by decide) (by decide)

/-- C7 counterexample: `check_limit` is not mutation-free.  Called on a new
calendar day it re-points the log path, deletes the prior day's log file
and resets the in-memory counter — the ledger state after the call differs
from the state before it in all three components. -/
theorem checkLimit_mutates_on_rollover :
    (checkLimit capsDemo ledgerRolloverDemo 1 "pro").1.logPathDay ≠
      ledgerRolloverDemo.logPathDay ∧
    (checkLimit capsDemo ledgerRolloverDemo 1 "pro").1.files 0 = none ∧
    ledgerRolloverDemo.files 0 ≠ none ∧
    (checkLimit capsDemo ledgerRolloverDemo 1 "pro").1.usageCounts "pro" = 0 ∧
    ledgerRolloverDemo.usageCounts "pro" = 1 := by
  refine ⟨?_, ?_, ?_, ?_, ?_⟩ <;> decide

theorem loadUsageCounts_idem (L : List (String × Int)) (s : Ledger) (today : Int) :
    loadUsageCounts L (loadUsageCounts L s today) today = loadUsageCounts L s today := by
  by_cases hd : s.logPathDay = some today
  · cases hf : s.files today with
    | none => rw [loadUsageCounts_same_none hd hf, loadUsageCounts_same_none hd hf]
    | some es =>
      rw [loadUsageCounts_same_some hd hf]
      have hf2 : ({ s with usageCounts := aggCounts L es } : Ledger).files today = some es := hf
      exact loadUsageCounts_same_some hd hf2
  · cases hf : s.files today with
    | none =>
      rw [loadUsageCounts_roll_none hd hf]
      exact loadUsageCounts_same_none rfl (by simp [hf])
    | some es =>
      rw [loadUsageCounts_roll_some hd hf]
      refine loadUsageCounts_same_some rfl ?_
      simp [hf]

theorem checkLimit_fst (L : List (String × Int)) (s : Ledger) (today : Int) (k : String) :
    (checkLimit L s today k).1 = loadUsageCounts L s today := by
  unfold checkLimit
  cases lookupLimit L k <;> rfl

/-- C7 amended: `check_limit` can mutate the ledger (its embedded
`_load_usage_counts` reloads, and on a day rollover resets counters,
re-points the path and deletes stale files), but it is idempotent on the
state: after any `check_limit` call, further same-day `check_limit` calls
leave the ledger state unchanged; `record_usage` remains the only
operation that increments a counter or appends a log line. -/
theorem checkLimit_idempotent (L : List (String × Int)) (s : Ledger)
    (today : Int) (k k2 : String) :
    (checkLimit L (checkLimit L s today k).1 today k2).1 = (checkLimit L s today k).1 := by
  rw [checkLimit_fst, checkLimit_fst, loadUsageCounts_idem]

theorem handleResponseCore_state (cfg : CoordConfig) (S : MState) (sp : AgentId)
    (text : String) (calls : List FunctionCall) :
    (handleResponseCore cfg S sp text calls).1.currentRallyCount = S.currentRallyCount ∧
    (handleResponseCore cfg S sp text calls).1.curSpeaker = none ∧
    (handleResponseCore cfg S sp text calls).1.lastApiRequestTime = none ∧
    (handleResponseCore cfg S sp text calls).1.postSpeechCallback = S.postSpeechCallback ∧
    (handleResponseCore cfg S sp text calls).1.isInRally = S.isInRally := by
  unfold handleResponseCore
  dsimp only
  repeat' split
  all_goals exact ⟨rfl, rfl, rfl, rfl, rfl⟩

theorem handleResponseCore_forced (cfg : CoordConfig) (S : MState) (sp : AgentId)
    (text : String) (calls : List FunctionCall)
    (h : MAX_RALLY_COUNT ≤ S.currentRallyCount) :
    outcomePassTurn (handleResponseCore cfg S sp text calls).2.2 = false := by
  unfold handleResponseCore
  dsimp only
  repeat' split
  all_goals simp_all [outcomePassTurn]

theorem handleResponseCore_pass_bound (cfg : CoordConfig) (S : MState) (sp : AgentId)
    (text : String) (calls : List FunctionCall) (t e : String)
    (h : (handleResponseCore cfg S sp text calls).2.2 = .speak t e true) :
    S.currentRallyCount < MAX_RALLY_COUNT := by
  by_contra hge
  push_neg at hge
  have hf := handleResponseCore_forced cfg S sp text calls hge
  rw [h] at hf
  simp [outcomePassTurn] at hf

theorem onFinishCallback_count (cfg : CoordConfig) (S : MState) (sp : AgentId)
    (text : String) (p : Bool) (now : Nat) :
    (onFinishCallback cfg S sp text p now).1.currentRallyCount = S.currentRallyCount ∨
    ((onFinishCallback cfg S sp text p now).1.currentRallyCount =
        S.currentRallyCount + 1 ∧ p = true) ∨
    (onFinishCallback cfg S sp text p now).1.currentRallyCount = 0 := by
  unfold onFinishCallback requestSpeech
  split
  · exact Or.inl rfl
  · split
    · rename_i hc
      exact Or.inr (Or.inl ⟨rfl, (Bool.and_eq_true _ _ |>.mp hc).2⟩)
    · exact Or.inr (Or.inr rfl)

theorem checkApiTimeout_fired (cfg : CoordConfig) (S : MState) (now : Nat)
    (sp : AgentId) (t0 : Nat) (hsp : S.curSpeaker = some sp)
    (ht : S.lastApiRequestTime = some t0) (hto : API_TIMEOUT_SECONDS < now - t0) :
    checkApiTimeout cfg S now =
      ((onFinishCallback cfg
          { S with curSpeaker := none, lastApiRequestTime := none, lockHeld := false }
          sp (cfg.msgOnApiTimeout sp) false now).1,
       [.speak sp (cfg.msgOnApiTimeout sp)
          ((lookupEmotion (cfg.availableEmotions sp) "troubled").getD "normal") false] ++
        (onFinishCallback cfg
          { S with curSpeaker := none, lastApiRequestTime := none, lockHeld := false }
          sp (cfg.msgOnApiTimeout sp) false now).2) := by
  unfold checkApiTimeout
  rw [hsp, ht]
  dsimp only
  rw [if_pos hto]

theorem creach_rally_le (cfg : CoordConfig) (f0 : AgentId → Int) :
    ∀ S, CReach cfg f0 S → S.currentRallyCount ≤ MAX_RALLY_COUNT := by
  have hmax : MAX_RALLY_COUNT = 3 := rfl
  intro S h
  induction h with
  | init => simp [initMState, hmax]
  | auto S coolOk sel now _ ih =>
    unfold checkAutoSpeech requestSpeech
    repeat' split
    all_goals simp_all [hmax]
  | respond S sp text calls gemma now _ ih =>
    rcases hc : handleResponseCore cfg S sp text calls with ⟨S2, acts, out⟩
    have hS2 : S2.currentRallyCount = S.currentRallyCount := by
      have hh := (handleResponseCore_state cfg S sp text calls).1
      rw [hc] at hh
      exact hh
    unfold stepRespond
    rw [hc]
    cases out with
    | costumeOnlyExit =>
      dsimp only
      omega
    | speak t e p =>
      dsimp only
      rcases onFinishCallback_count cfg S2 sp t p now with h1 | ⟨h1, hp⟩ | h1
      · omega
      · subst hp
        have hlt := handleResponseCore_pass_bound cfg S sp text calls t e
          (by rw [hc])
        omega
      · omega
  | watchdog S now _ ih =>
    rcases hs : S.curSpeaker with _ | sp
    · have he : checkApiTimeout cfg S now = (S, []) := by
        unfold checkApiTimeout
        rw [hs]
      rw [he]
      exact ih
    · rcases ht : S.lastApiRequestTime with _ | t0
      · have he : checkApiTimeout cfg S now = (S, []) := by
          unfold checkApiTimeout
          rw [hs, ht]
        rw [he]
        exact ih
      · by_cases hto : API_TIMEOUT_SECONDS < now - t0
        · rw [checkApiTimeout_fired cfg S now sp t0 hs ht hto]
          dsimp only
          rcases onFinishCallback_count cfg
              { S with curSpeaker := none, lastApiRequestTime := none, lockHeld := false }
              sp (cfg.msgOnApiTimeout sp) false now with h1 | ⟨h1, hp⟩ | h1
          · rw [h1]; exact ih
          · cases hp
          · rw [h1]; exact Nat.zero_le _
        · have he : checkApiTimeout cfg S now = (S, []) := by
            unfold checkApiTimeout
            rw [hs, ht]
            dsimp only
            rw [if_neg hto]
          rw [he]
          exact ih

/-- C2: over every trigger-driven event sequence the rally counter never
exceeds `MAX_RALLY_COUNT`; once it has reached that maximum, the turn-pass
decision of `handle_response_from_character` is false no matter what the
model's `pass_turn_to_partner` call requested; and `MAX_RALLY_COUNT` is 3. -/
theorem rally_bounded_and_turn_pass_forced (cfg : CoordConfig) (f0 : AgentId → Int) :
    (∀ S, CReach cfg f0 S → S.currentRallyCount ≤ MAX_RALLY_COUNT) ∧
    (∀ (S : MState) (sp : AgentId) (text : String) (calls : List FunctionCall),
      MAX_RALLY_COUNT ≤ S.currentRallyCount →
      outcomePassTurn (handleResponseCore cfg S sp text calls).2.2 = false) ∧
    MAX_RALLY_COUNT = 3 :=
  ⟨creach_rally_le cfg f0,
   fun S sp text calls h => handleResponseCore_forced cfg S sp text calls h, rfl⟩

/-- Witness for `rally_bounded_and_turn_pass_forced`: the initial state
respects the bound, and at the cap an explicit continue_rally=True intent
is still forced to false. -/
theorem rally_bounded_witness :
    (initMState (fun _ => 0)).currentRallyCount ≤ MAX_RALLY_COUNT ∧
    outcomePassTurn
      (handleResponseCore cfgDemo rallyCapState 0 "続けましょう" [passTurnTrueCall]).2.2
      = false :=
  ⟨(rally_bounded_and_turn_pass_forced cfgDemo (fun _ => 0)).1 _ CReach.init,
   (rally_bounded_and_turn_pass_forced cfgDemo (fun _ => 0)).2.1
     rallyCapState 0 "続けましょう" [passTurnTrueCall] (by decide)⟩

theorem onFinishCallback_cases (cfg : CoordConfig) (S : MState) (sp : AgentId)
    (text : String) (p : Bool) (now : Nat) :
    (onFinishCallback cfg S sp text p now).1 = { S with postSpeechCallback := false } ∨
    ((onFinishCallback cfg S sp text p now).1 =
      { S with isInRally := true, currentRallyCount := S.currentRallyCount + 1,
               curSpeaker := some (cfg.partner sp), lastApiRequestTime := some now } ∧
      p = true) ∨
    (onFinishCallback cfg S sp text p now).1 =
      { S with isInRally := false, preventCoolDownReset := false,
               currentRallyCount := 0, lockHeld := false } := by
  unfold onFinishCallback requestSpeech
  split
  · exact Or.inl rfl
  · split
    · rename_i hc2
      exact Or.inr (Or.inl ⟨rfl, ((Bool.and_eq_true _ _).mp hc2).2⟩)
    · exact Or.inr (Or.inr rfl)

theorem creach_inflight_locked (cfg : CoordConfig) (f0 : AgentId → Int) :
    ∀ S, CReach cfg f0 S → S.curSpeaker.isSome →
      (S.lockHeld || S.isInRally) = true := by
  intro S h
  induction h with
  | init => intro hs; simp [initMState] at hs
  | auto S coolOk sel now _ ih =>
    unfold checkAutoSpeech requestSpeech
    repeat' split
    all_goals intro hs
    all_goals simp_all
  | respond S sp text calls gemma now _ ih =>
    rcases hc : handleResponseCore cfg S sp text calls with ⟨S2, acts, out⟩
    have hstate := handleResponseCore_state cfg S sp text calls
    rw [hc] at hstate
    obtain ⟨_, hcur, _, _, _⟩ := hstate
    unfold stepRespond
    rw [hc]
    cases out with
    | costumeOnlyExit =>
      dsimp only
      intro hs
      rw [hcur] at hs
      simp at hs
    | speak t e p =>
      dsimp only
      intro hs
      rcases onFinishCallback_cases cfg S2 sp t p now with h1 | ⟨h1, _⟩ | h1
      · rw [h1] at hs
        simp only at hs
        rw [hcur] at hs
        simp at hs
      · rw [h1]
        simp
      · rw [h1] at hs
        simp only at hs
        rw [hcur] at hs
        simp at hs
  | watchdog S now _ ih =>
    rcases hs0 : S.curSpeaker with _ | sp
    · have he : checkApiTimeout cfg S now = (S, []) := by
        unfold checkApiTimeout
        rw [hs0]
      rw [he]
      exact ih
    · rcases ht : S.lastApiRequestTime with _ | t0
      · have he : checkApiTimeout cfg S now = (S, []) := by
          unfold checkApiTimeout
          rw [hs0, ht]
        rw [he]
        exact ih
      · by_cases hto : API_TIMEOUT_SECONDS < now - t0
        · rw [checkApiTimeout_fired cfg S now sp t0 hs0 ht hto]
          dsimp only
          intro hs
          rcases onFinishCallback_cases cfg
              { S with curSpeaker := none, lastApiRequestTime := none, lockHeld := false }
              sp (cfg.msgOnApiTimeout sp) false now with h1 | ⟨h1, hp⟩ | h1
          · rw [h1] at hs
            simp at hs
          · cases hp
          · rw [h1] at hs
            simp at hs
        · have he : checkApiTimeout cfg S now = (S, []) := by
            unfold checkApiTimeout
            rw [hs0, ht]
            dsimp only
            rw [if_neg hto]
          rw [he]
          exact ih

/-- C10: under the trigger-driven event system, an exchange in flight
always owns the lock or an active rally, so while one is in flight every
auto-speech trigger is rejected with the state unchanged (nothing is
queued); and, independently of reachability, a trigger arriving while the
processing lock is held is always rejected (the lock acquisition path only
runs when the guard saw the lock free — trylock discipline).  Hence no two
dispatches are ever concurrently in flight. -/
theorem trigger_rejected_not_queued (cfg : CoordConfig) (f0 : AgentId → Int) :
    (∀ S, CReach cfg f0 S → S.curSpeaker.isSome →
      ∀ (coolOk : Bool) (sel : Option AgentId) (now : Nat),
        checkAutoSpeech cfg S coolOk sel now = (S, [])) ∧
    (∀ (S : MState) (coolOk : Bool) (sel : Option AgentId) (now : Nat),
      S.lockHeld = true → checkAutoSpeech cfg S coolOk sel now = (S, [])) := by
  constructor
  · intro S hr hs coolOk sel now
    have hlr := creach_inflight_locked cfg f0 S hr hs
    unfold checkAutoSpeech
    by_cases h1 : (!cfg.autoSpeechEnabled) = true
    · rw [if_pos h1]
    · rw [if_neg h1, if_pos (by
        rcases (Bool.or_eq_true _ _).mp hlr with h | h <;> simp [h])]
  · intro S coolOk sel now hl
    unfold checkAutoSpeech
    by_cases h1 : (!cfg.autoSpeechEnabled) = true
    · rw [if_pos h1]
    · rw [if_neg h1, if_pos (by simp [hl])]

/-- Witness for `trigger_rejected_not_queued`: a second trigger during the
dispatched exchange is a no-op, and a trigger against a held lock is a
no-op. -/
theorem trigger_rejected_not_queued_witness :
    checkAutoSpeech cfgDemo dispatchedDemo true (some 1) 9 = (dispatchedDemo, []) ∧
    checkAutoSpeech cfgDemo lockedDemo true (some 0) 9 = (lockedDemo, []) :=
  ⟨(trigger_rejected_not_queued cfgDemo (fun _ => 0)).1 dispatchedDemo
      (CReach.auto (initMState (fun _ => 0)) true (some 0) 7 CReach.init)
      (by decide) true (some 1) 9,
   (trigger_rejected_not_queued cfgDemo (fun _ => 0)).2 lockedDemo true (some 0) 9 rfl⟩

/-- C1 amended: a response arriving after the watchdog has force-resolved
its exchange is NOT discarded — `handle_response_from_character` performs
no identity check on the in-flight request: its behaviour is entirely
independent of the `current_speaker_on_request` / `last_api_request_time`
bookkeeping, which it simply clears again. -/
theorem late_response_identity_free (cfg : CoordConfig) (S : MState)
    (sp : AgentId) (text : String) (calls : List FunctionCall)
    (gemma : Option String) (now : Nat) (x : Option AgentId) (y : Option Nat) :
    stepRespond cfg { S with curSpeaker := x, lastApiRequestTime := y }
        sp text calls gemma now =
      stepRespond cfg { S with curSpeaker := none, lastApiRequestTime := none }
        sp text calls gemma now := rfl

/-- C1 counterexample: after the watchdog has force-resolved the exchange
(bookkeeping cleared, lock released), a late-arriving model response is
still processed in full — applying it emits a conversation-log entry and a
speech, so it is not a no-op. -/
theorem late_response_applied_counterexample :
    postWatchdogDemo.curSpeaker = none ∧
    postWatchdogDemo.lockHeld = false ∧
    (stepRespond cfgDemo postWatchdogDemo 0 "こんにちは" [] none 60).2 =
      [.logEvent 0 false "こんにちは", .speak 0 "こんにちは" "通常" false] ∧
    (stepRespond cfgDemo postWatchdogDemo 0 "こんにちは" [] none 60).2 ≠ [] := by
  refine ⟨rfl, rfl, rfl, ?_⟩
  decide

/-- C5: whenever the watchdog finds an in-flight request older than the
30-second ceiling, it surfaces the speaker's fixed timeout message (with a
troubled emotion and no turn-pass) to the original requester, and leaves
the processing lock released and the bookkeeping cleared. -/
theorem onFinishCallback_no_pass (cfg : CoordConfig) (S : MState) (sp : AgentId)
    (text : String) (now : Nat) :
    onFinishCallback cfg S sp text false now =
      (if S.postSpeechCallback then { S with postSpeechCallback := false }
       else { S with isInRally := false, preventCoolDownReset := false,
                     currentRallyCount := 0, lockHeld := false }, []) := by
  unfold onFinishCallback
  by_cases hcb : S.postSpeechCallback = true
  · rw [if_pos hcb, if_pos hcb]
  · rw [if_neg hcb, if_neg hcb, if_neg (by simp)]

/-- C5: whenever the watchdog finds an in-flight request older than the
30-second ceiling, it surfaces the speaker's fixed timeout message (with a
troubled emotion and no turn-pass) to the original requester, and leaves
the processing lock released and the bookkeeping cleared. -/
theorem watchdog_surfaces_timeout (cfg : CoordConfig) (S : MState) (now : Nat)
    (sp : AgentId) (t0 : Nat) (hsp : S.curSpeaker = some sp)
    (ht : S.lastApiRequestTime = some t0)
    (hto : API_TIMEOUT_SECONDS < now - t0) :
    (checkApiTimeout cfg S now).2 =
      [.speak sp (cfg.msgOnApiTimeout sp)
        ((lookupEmotion (cfg.availableEmotions sp) "troubled").getD "normal") false] ∧
    (checkApiTimeout cfg S now).1.lockHeld = false ∧
    (checkApiTimeout cfg S now).1.curSpeaker = none ∧
    (checkApiTimeout cfg S now).1.lastApiRequestTime = none := by
  rw [checkApiTimeout_fired cfg S now sp t0 hsp ht hto,
    onFinishCallback_no_pass cfg
      { S with curSpeaker := none, lastApiRequestTime := none, lockHeld := false }
      sp (cfg.msgOnApiTimeout sp) now]
  refine ⟨by simp, ?_, ?_, ?_⟩ <;> (dsimp only; split <;> rfl)

/-- Witness for `watchdog_surfaces_timeout` at the concrete in-flight
state, 40 seconds after dispatch. -/
theorem watchdog_surfaces_timeout_witness :
    (checkApiTimeout cfgDemo inflightDemo 40).2 =
      [.speak 0 (cfgDemo.msgOnApiTimeout 0)
        ((lookupEmotion (cfgDemo.availableEmotions 0) "troubled").getD "normal") false] ∧
    (checkApiTimeout cfgDemo inflightDemo 40).1.lockHeld = false ∧
    (checkApiTimeout cfgDemo inflightDemo 40).1.curSpeaker = none ∧
    (checkApiTimeout cfgDemo inflightDemo 40).1.lastApiRequestTime = none :=
  watchdog_surfaces_timeout cfgDemo inflightDemo 40 0 0 rfl rfl (by decide)

theorem processCall_unrecognized (cfg : CoordConfig) (sp : AgentId)
    (acc : ParseAcc) (c : FunctionCall) (h : c.name ∉ recognizedCallNames) :
    processCall cfg sp acc c = acc := by
  simp only [recognizedCallNames, List.mem_cons, List.not_mem_nil, or_false,
    not_or] at h
  obtain ⟨h1, h2, h3, h4, h5, h6, h7⟩ := h
  unfold processCall
  rw [if_neg h1, if_neg h2, if_neg h3, if_neg h4, if_neg h5, if_neg h6, if_neg h7]

theorem foldl_unrecognized (cfg : CoordConfig) (sp : AgentId) :
    ∀ (calls : List FunctionCall) (acc : ParseAcc),
      (∀ c ∈ calls, c.name ∉ recognizedCallNames) →
      calls.foldl (processCall cfg sp) acc = acc := by
  intro calls
  induction calls with
  | nil => intro acc _; rfl
  | cons c cs ih =>
    intro acc h
    rw [List.foldl_cons, processCall_unrecognized cfg sp acc c (h c (by simp))]
    exact ih acc (fun c2 hc2 => h c2 (by simp [hc2]))

theorem any_recognized_eq_false {calls : List FunctionCall} {nm : String}
    (h : ∀ c ∈ calls, c.name ∉ recognizedCallNames) (hnm : nm ∈ recognizedCallNames) :
    (calls.any (fun c => c.name == nm)) = false := by
  rw [List.any_eq_false]
  intro c hc
  simp only [beq_iff_eq]
  intro he
  exact (h c hc) (he ▸ hnm)

theorem processCall_speechText (cfg : CoordConfig) (sp : AgentId)
    (acc : ParseAcc) (c : FunctionCall) (h : c.name ≠ "generate_speech") :
    (processCall cfg sp acc c).speechText = acc.speechText := by
  unfold processCall
  rw [if_neg h]
  repeat' split
  all_goals rfl

theorem foldl_speechText (cfg : CoordConfig) (sp : AgentId) :
    ∀ (calls : List FunctionCall) (acc : ParseAcc),
      (∀ c ∈ calls, c.name ≠ "generate_speech") →
      (calls.foldl (processCall cfg sp) acc).speechText = acc.speechText := by
  intro calls
  induction calls with
  | nil => intro acc _; rfl
  | cons c cs ih =>
    intro acc h
    rw [List.foldl_cons, ih _ (fun c2 hc2 => h c2 (by simp [hc2])),
      processCall_speechText cfg sp acc c (h c (by simp))]

theorem processCall_nospeak (cfg : CoordConfig) (sp : AgentId)
    (acc : ParseAcc) (c : FunctionCall)
    (h : (acc.actions.all (fun a => !isSpeakAction a)) = true) :
    ((processCall cfg sp acc c).actions.all (fun a => !isSpeakAction a)) = true := by
  unfold processCall
  repeat' split
  all_goals simp_all [isSpeakAction, List.all_append]

theorem foldl_nospeak (cfg : CoordConfig) (sp : AgentId) :
    ∀ (calls : List FunctionCall) (acc : ParseAcc),
      (acc.actions.all (fun a => !isSpeakAction a)) = true →
      (((calls.foldl (processCall cfg sp) acc).actions.all
        (fun a => !isSpeakAction a))) = true := by
  intro calls
  induction calls with
  | nil => intro acc h; exact h
  | cons c cs ih =>
    intro acc h
    rw [List.foldl_cons]
    exact ih _ (processCall_nospeak cfg sp acc c h)

theorem onFinishCallback_favorability (cfg : CoordConfig) (S : MState)
    (sp : AgentId) (text : String) (p : Bool) (now : Nat) :
    (onFinishCallback cfg S sp text p now).1.favorability = S.favorability := by
  unfold onFinishCallback requestSpeech
  repeat' split
  all_goals rfl

theorem handleResponseCore_empty_fallback (cfg : CoordConfig) (S : MState)
    (sp : AgentId) (text : String) (calls : List FunctionCall)
    (hunrec : ∀ c ∈ calls, c.name ∉ recognizedCallNames)
    (htext : stripWhite text.data = []) :
    (handleResponseCore cfg S sp text calls).2.1 =
      [.logEvent sp false (cfg.msgOnEmptyResponse sp)] ∧
    (handleResponseCore cfg S sp text calls).2.2 =
      .speak (cfg.msgOnEmptyResponse sp)
        ((lookupEmotion (cfg.availableEmotions sp) "troubled").getD
          ((lookupEmotion (cfg.availableEmotions sp) "normal").getD "normal"))
        false := by
  have hnospeech : ∀ c ∈ calls, c.name ≠ "generate_speech" := by
    intro c hc he
    exact (hunrec c hc) (by rw [he]; simp [recognizedCallNames])
  unfold handleResponseCore
  dsimp only
  have hc1 : ¬(((calls.isEmpty || !(calls.any fun c => c.name == "generate_speech"))
      && !(stripWhite text.data).isEmpty) = true) := by
    rw [htext]; simp
  rw [if_neg hc1]
  rw [foldl_unrecognized cfg sp calls _ hunrec]
  rw [if_pos (by rfl)]
  have hc2 : ¬(((calls.any fun c => c.name == "change_costume") && ("" == "")) = true) := by
    rw [any_recognized_eq_false hunrec (by simp [recognizedCallNames])]; simp
  rw [if_neg hc2]
  exact ⟨by simp, by simp⟩

theorem handleResponseCore_costume_exit (cfg : CoordConfig) (S : MState)
    (sp : AgentId) (text : String) (calls : List FunctionCall)
    (hnospeech : ∀ c ∈ calls, c.name ≠ "generate_speech")
    (hcost : (calls.any (fun c => c.name == "change_costume")) = true)
    (htext : stripWhite text.data = []) :
    (handleResponseCore cfg S sp text calls).2.2 = .costumeOnlyExit ∧
    (((handleResponseCore cfg S sp text calls).2.1.all
      (fun a => !isSpeakAction a))) = true ∧
    (handleResponseCore cfg S sp text calls).1.lockHeld = false := by
  unfold handleResponseCore
  dsimp only
  have hc1 : ¬(((calls.isEmpty || !(calls.any fun c => c.name == "generate_speech"))
      && !(stripWhite text.data).isEmpty) = true) := by
    rw [htext]; simp
  rw [if_neg hc1]
  have hsp2 := foldl_speechText cfg sp calls
    { speechText := ""
      emotionJp := (lookupEmotion (cfg.availableEmotions sp) "normal").getD "normal"
      passTurn := false
      favorability := S.favorability sp
      actions := [] } hnospeech
  rw [if_pos (by rw [hsp2]; rfl)]
  rw [if_pos (by rw [hcost, hsp2]; rfl)]
  exact ⟨rfl, foldl_nospeak cfg sp calls _ rfl, rfl⟩

/-- C8: (a) a response with no recognized function calls and
whitespace-only free text always yields exactly one speech — the
configured empty-response fallback message — with a troubled emotion and
`TurnPass=false`; (b) when a costume-change call alone explains the empty
speech, no fallback speech is produced at all and the processing lock is
released. -/
theorem empty_response_fallback_policy (cfg : CoordConfig) (S : MState)
    (sp : AgentId) (gemma : Option String) (now : Nat) :
    (∀ (text : String) (calls : List FunctionCall),
      (∀ c ∈ calls, c.name ∉ recognizedCallNames) →
      stripWhite text.data = [] →
      (stepRespond cfg S sp text calls gemma now).2 =
        [.logEvent sp false (cfg.msgOnEmptyResponse sp),
         .speak sp (cfg.msgOnEmptyResponse sp)
           (applyGemmaCompletion cfg sp
             ((lookupEmotion (cfg.availableEmotions sp) "troubled").getD
               ((lookupEmotion (cfg.availableEmotions sp) "normal").getD "normal"))
             gemma)
           false]) ∧
    (∀ (text : String) (calls : List FunctionCall),
      (∀ c ∈ calls, c.name ≠ "generate_speech") →
      (calls.any (fun c => c.name == "change_costume")) = true →
      stripWhite text.data = [] →
      (((stepRespond cfg S sp text calls gemma now).2.all
        (fun a => !isSpeakAction a))) = true ∧
      (stepRespond cfg S sp text calls gemma now).1.lockHeld = false) := by
  constructor
  · intro text calls hunrec htext
    obtain ⟨hacts, hout⟩ :=
      handleResponseCore_empty_fallback cfg S sp text calls hunrec htext
    rcases hc : handleResponseCore cfg S sp text calls with ⟨S2, acts, out⟩
    rw [hc] at hacts hout
    dsimp only at hacts hout
    subst hacts
    subst hout
    unfold stepRespond
    rw [hc]
    dsimp only
    rw [onFinishCallback_no_pass]
    simp
  · intro text calls hnospeech hcost htext
    obtain ⟨hout, hacts, hlock⟩ :=
      handleResponseCore_costume_exit cfg S sp text calls hnospeech hcost htext
    rcases hc : handleResponseCore cfg S sp text calls with ⟨S2, acts, out⟩
    rw [hc] at hout hacts hlock
    dsimp only at hout hacts hlock
    subst hout
    unfold stepRespond
    rw [hc]
    exact ⟨hacts, hlock⟩

/-- Witness for `empty_response_fallback_policy`: an unknown call with
empty text triggers the fallback speech; a sole costume change with empty
text exits silently with the lock released. -/
theorem empty_response_fallback_policy_witness :
    (stepRespond cfgDemo (initMState (fun _ => 0)) 0 "" [⟨"unknown_call", []⟩] none 5).2 =
      [.logEvent 0 false (cfgDemo.msgOnEmptyResponse 0),
       .speak 0 (cfgDemo.msgOnEmptyResponse 0)
         (applyGemmaCompletion cfgDemo 0
           ((lookupEmotion (cfgDemo.availableEmotions 0) "troubled").getD
             ((lookupEmotion (cfgDemo.availableEmotions 0) "normal").getD "normal"))
           none)
         false] ∧
    (((stepRespond cfgDemo (initMState (fun _ => 0)) 0 ""
        [⟨"change_costume", [("costume_id", .str "b")]⟩] none 5).2.all
      (fun a => !isSpeakAction a)) = true) ∧
    (stepRespond cfgDemo (initMState (fun _ => 0)) 0 ""
        [⟨"change_costume", [("costume_id", .str "b")]⟩] none 5).1.lockHeld = false := by
  refine ⟨(empty_response_fallback_policy cfgDemo (initMState (fun _ => 0)) 0 none 5).1
    "" [⟨"unknown_call", []⟩] (by decide) rfl, ?_, ?_⟩
  · exact ((empty_response_fallback_policy cfgDemo (initMState (fun _ => 0)) 0 none 5).2
      "" [⟨"change_costume", [("costume_id", .str "b")]⟩] (by decide) (by decide) rfl).1
  · exact ((empty_response_fallback_policy cfgDemo (initMState (fun _ => 0)) 0 none 5).2
      "" [⟨"change_costume", [("costume_id", .str "b")]⟩] (by decide) (by decide) rfl).2

theorem stepRespond_favorability (cfg : CoordConfig) (S : MState) (sp : AgentId)
    (text : String) (calls : List FunctionCall) (gemma : Option String) (now : Nat) :
    (stepRespond cfg S sp text calls gemma now).1.favorability =
      (handleResponseCore cfg S sp text calls).1.favorability := by
  rcases hc : handleResponseCore cfg S sp text calls with ⟨S2, acts, out⟩
  unfold stepRespond
  rw [hc]
  cases out with
  | costumeOnlyExit => rfl
  | speak t e p =>
    dsimp only
    rw [onFinishCallback_favorability]

theorem filterAiResponse_empty : filterAiResponse "" = "" := rfl

theorem processCall_favCall (cfg : CoordConfig) (sp : AgentId) (acc : ParseAcc)
    (v : ArgVal) :
    processCall cfg sp acc (favCall v) =
      (match pyToInt v with
       | some n => { acc with favorability := updateFavorability acc.favorability n }
       | none => acc) := rfl

theorem handleResponseCore_favCall (cfg : CoordConfig) (S : MState) (sp : AgentId)
    (v : ArgVal) :
    (handleResponseCore cfg S sp "" [favCall v]).1.favorability sp =
      (match pyToInt v with
       | some n => updateFavorability (S.favorability sp) n
       | none => S.favorability sp) := by
  have hc1 : ¬((([favCall v]).isEmpty
      || !(([favCall v]).any fun c => c.name == "generate_speech"))
      && !(stripWhite ("" : String).data).isEmpty) = true :=
    fun h => Bool.false_ne_true h
  unfold handleResponseCore
  rw [if_neg hc1]
  simp only [List.foldl_cons, List.foldl_nil, processCall_favCall]
  cases hn : pyToInt v with
  | some n => simp [favCall, filterAiResponse_empty]
  | none => simp [favCall, filterAiResponse_empty]

/-- C9: a `change_favorability` value is parsed permissively — an integer
or an integer-valued string (or bool) is accepted via Python `int()` —
and the applied delta is clamped into [-25, 25]; a value `int()` cannot
convert leaves favorability unchanged (warning only, never fatal). -/
theorem favorability_parsed_and_clamped (cfg : CoordConfig) (S : MState)
    (sp : AgentId) (gemma : Option String) (now : Nat) (v : ArgVal) :
    (∀ n, pyToInt v = some n →
      (stepRespond cfg S sp "" [favCall v] gemma now).1.favorability sp =
        S.favorability sp + max (-25) (min 25 n) ∧
      -25 ≤ max (-25 : Int) (min 25 n) ∧ max (-25 : Int) (min 25 n) ≤ 25) ∧
    (pyToInt v = none →
      (stepRespond cfg S sp "" [favCall v] gemma now).1.favorability sp =
        S.favorability sp) ∧
    pyToInt (.int 7) = some 7 ∧
    pyToInt (.str " 10 ") = some 10 ∧
    pyToInt (.str "4.5") = none := by
  refine ⟨?_, ?_, by decide, by decide, by decide⟩
  · intro n hn
    refine ⟨?_, le_max_left _ _, max_le (by norm_num) (min_le_left _ _)⟩
    rw [stepRespond_favorability, handleResponseCore_favCall, hn]
    rfl
  · intro hn
    rw [stepRespond_favorability, handleResponseCore_favCall, hn]

/-- Witness for `favorability_parsed_and_clamped`: the string " -40 "
parses to -40 and is clamped to -25; the non-numeric list value changes
nothing. -/
theorem favorability_parsed_and_clamped_witness :
    ((stepRespond cfgDemo (initMState (fun _ => 0)) 0 ""
        [favCall (.str " -40 ")] none 5).1.favorability 0 =
      (initMState (fun _ => 0)).favorability 0 + max (-25) (min 25 (-40)) ∧
      -25 ≤ max (-25 : Int) (min 25 (-40)) ∧ max (-25 : Int) (min 25 (-40)) ≤ 25) ∧
    (stepRespond cfgDemo (initMState (fun _ => 0)) 0 ""
        [favCall (.strList ["x"])] none 5).1.favorability 0 =
      (initMState (fun _ => 0)).favorability 0 :=
  ⟨(favorability_parsed_and_clamped cfgDemo (initMState (fun _ => 0)) 0 none 5
      (.str " -40 ")).1 (-40) (by decide),
   (favorability_parsed_and_clamped cfgDemo (initMState (fun _ => 0)) 0 none 5
      (.strList ["x"])).2.1 rfl⟩

end Cocococo
